import Mathlib

/-!
Verification of the RAG-AI file-ingestion core: a shallow embedding of
`core/base_loader.py`, `adaptors/langchain/langchain_Loader.py`,
`db/repositories/knowledge_file_repo.py` and `services/indexing_service.py`,
together with proofs about the embedded operations.

External collaborators (the langchain format backends, the filesystem and the
MySQL store) are modelled as explicit parameters: a backend is a function from
a path to either an exception or a list of `content + metadata` units, the
filesystem is a predicate on paths, and the `knowledge_file` table is a list of
records mutated by the embedded repository operations.
-/

namespace RagAI

/-! ## Python-semantics helpers -/

/-- Python `x or d` for an optional integer argument (`None` and `0` are falsy). -/
def pyOrInt (x : Option Int) (d : Int) : Int :=
  match x with
  | none => d
  | some v => if v = 0 then d else v

/-- Python `x or d` for an optional string argument (`None` and `""` are falsy). -/
def pyOrStr (x : Option String) (d : String) : String :=
  match x with
  | none => d
  | some s => if s = "" then d else s

/-- ASCII lower-casing of a string, as Python `str.lower` on the extension
alphabet used here. -/
def strToLower (s : String) : String :=
  String.mk (s.toList.map Char.toLower)

/-- Last slash-separated component of a path string, as Python `PurePath.name`. -/
def pathName (s : String) : String :=
  String.mk ((s.toList.reverse.takeWhile fun c => c != '/').reverse)

/-- Index of the last occurrence of `c` in `cs`, as Python `str.rfind`. -/
def rfindIdx (c : Char) : List Char → Option Nat
  | [] => none
  | x :: xs =>
    match rfindIdx c xs with
    | some i => some (i + 1)
    | none => if x = c then some 0 else none

/-- Python `PurePath.suffix`: the extension of the final component, `""` when the
last dot is leading or trailing or absent. -/
def pathSuffix (s : String) : String :=
  let cs := (pathName s).toList
  match rfindIdx '.' cs with
  | none => ""
  | some i => if 0 < i ∧ i + 1 < cs.length then String.mk (cs.drop i) else ""

/-! ## Data model: RawDoc and backend documents -/

/-- From `core/types.py`: `RawDoc` with `text` and `metadata` (metadata modelled as a
string-keyed association list with string values). -/
structure RawDoc where
  text : String
  metadata : List (String × String)
deriving DecidableEq, Repr

/-- A langchain backend document: `page_content` plus `metadata`. -/
structure LCDoc where
  page_content : String
  metadata : List (String × String)
deriving DecidableEq, Repr

/-- A file path handed to the loader. -/
structure SimPath where
  pathStr : String
deriving DecidableEq, Repr

/-- The environment `load` runs against: which paths exist on disk, and what the
format-specific langchain backend produces for each path (`Except` models a
raised exception inside `loader.load()`). -/
structure LoadEnv where
  fsExists : SimPath → Bool
  backend : SimPath → Except String (List LCDoc)

/-- The extensions registered in `LangchainLoaderAdapter._loader_map`. -/
def loader_map_keys : List String := [".pdf", ".docx", ".txt", ".md"]

/-- The per-path body of `LangchainLoaderAdapter.load`: skip missing files and
unregistered extensions, skip a path whose backend raises or returns nothing,
and drop any unit whose `page_content` is empty or whitespace-only; each kept
unit becomes `RawDoc(text = page_content, metadata = doc.metadata)`. -/
def loadFile (env : LoadEnv) (p : SimPath) : List RawDoc :=
  if env.fsExists p = false then []
  else if (loader_map_keys.contains (strToLower (pathSuffix p.pathStr))) = false then []
  else
    match env.backend p with
    | .error _ => []
    | .ok docs =>
      if docs.isEmpty then []
      else
        docs.filterMap fun d =>
          if d.page_content.toList.all Char.isWhitespace then none
          else some { text := d.page_content, metadata := d.metadata }

/-- Embeds `LangchainLoaderAdapter.load` over a whole path sequence: the concatenation,
in order, of the per-path yields. -/
def load (env : LoadEnv) (paths : List SimPath) : List RawDoc :=
  paths.flatMap (loadFile env)

/-! ## File discovery (`BaseLoader.discover_files`) -/

/-- A filesystem tree: files and directories carry their full path string. -/
inductive FSTree where
  | file (path : String)
  | dir (path : String) (children : List FSTree)

mutual

/-- The paths of all files at or below a node, in traversal order
(`root.rglob("*")` filtered by `p.is_file()`). -/
def collectFiles : FSTree → List String
  | .file p => [p]
  | .dir _ cs => collectFilesList cs

/-- Runs `collectFiles` over a list of children. -/
def collectFilesList : List FSTree → List String
  | [] => []
  | t :: ts => collectFiles t ++ collectFilesList ts

end

/-- Whether a string starts with a dot (`e.startswith('.')`). -/
def startsWithDot (e : String) : Bool :=
  match e.toList with
  | '.' :: _ => true
  | _ => false

/-- Normalisation of `allowed_exts()`: prepend a dot when missing, lower-case. -/
def normalizeExts (exts : List String) : List String :=
  exts.map fun e =>
    strToLower (if startsWithDot e then e else String.mk ('.' :: e.toList))

/-- Lexicographic strict comparison of char lists by code point. -/
def charListLt : List Char → List Char → Bool
  | _, [] => false
  | [], _ :: _ => true
  | a :: as, b :: bs =>
    if a.toNat < b.toNat then true
    else if b.toNat < a.toNat then false
    else charListLt as bs

/-- Lexicographic strict comparison of strings (Python's `<` on path strings). -/
def strLt (a b : String) : Bool :=
  charListLt a.toList b.toList

/-- Insert a path into a strictly sorted list, dropping duplicates
(the `sorted(set(files))` step). -/
def insertSorted (x : String) : List String → List String
  | [] => [x]
  | y :: ys =>
    if strLt x y then x :: y :: ys
    else if x = y then y :: ys
    else y :: insertSorted x ys

/-- Computes `sorted(set(l))`: strictly sorted, de-duplicated version of `l`. -/
def sortDedup (l : List String) : List String :=
  l.foldr insertSorted []

/-- Embeds `BaseLoader.discover_files`: `none` models a `root` that does not exist;
a file is returned iff its normalised suffix is allowed; a directory yields the
sorted, de-duplicated list of its recursively contained allowed files. -/
def discover_files (allowed : List String) (root : Option FSTree) : List String :=
  match root with
  | none => []
  | some t =>
    let exts := normalizeExts allowed
    match t with
    | .file p => if exts.contains (strToLower (pathSuffix p)) then [p] else []
    | .dir _ cs =>
      sortDedup ((collectFilesList cs).filter fun p =>
        exts.contains (strToLower (pathSuffix p)))

/-! ## Repository (`KnowledgeFileRepository`) -/

/-- One row of the `knowledge_file` table; columns that `insert` leaves out of
its field list start as SQL NULL and are modelled with `Option`. -/
structure KFRecord where
  kf_id : String
  kb_id : String
  source_uri : String
  file_name : String
  file_ext : String
  file_size : Int
  source_type : Option String
  checksum : Option String
  parser_profile : Option String
  version : Int
  custom_docs : Int
  status : String
  chunk_count : Option Int
  chunk_profile : Option String
  vector_count : Option Int
  embed_model : Option String
deriving DecidableEq, Repr

/-- The `knowledge_file` table. -/
abbrev KFTable := List KFRecord

/-- Embeds `KnowledgeFileRepository.insert`: appends one row whose `status` column is
the literal `'parsed'` (the Python signature has no status parameter; `version`
defaults to 1 and `custom_docs` to 0 at the call site). `kf_id` stands for the
freshly generated UUID. -/
def insertRecord (db : KFTable) (kf_id kb_id source_uri file_name file_ext : String)
    (file_size : Int) (source_type checksum parser_profile : Option String)
    (version custom_docs : Int) : KFTable :=
  db ++ [{ kf_id := kf_id, kb_id := kb_id, source_uri := source_uri,
           file_name := file_name, file_ext := file_ext, file_size := file_size,
           source_type := source_type, checksum := checksum,
           parser_profile := parser_profile, version := version,
           custom_docs := custom_docs, status := "parsed",
           chunk_count := none, chunk_profile := none,
           vector_count := none, embed_model := none }]

/-- The per-row effect of `KnowledgeFileRepository.update_status`: the
`chunked` branch also writes `chunk_count or 0` and `chunk_profile or
'default'`; the `embedded` branch also writes `vector_count or 0` and
`embed_model or 'unknown'`; every other status only writes `status`. -/
def applyUpdate (r : KFRecord) (status : String) (chunk_count : Option Int)
    (chunk_profile : Option String) (vector_count : Option Int)
    (embed_model : Option String) : KFRecord :=
  if status = "chunked" then
    { r with status := status,
             chunk_count := some (pyOrInt chunk_count 0),
             chunk_profile := some (pyOrStr chunk_profile "default") }
  else if status = "embedded" then
    { r with status := status,
             vector_count := some (pyOrInt vector_count 0),
             embed_model := some (pyOrStr embed_model "unknown") }
  else
    { r with status := status }

/-- Embeds `KnowledgeFileRepository.update_status`: the `UPDATE ... WHERE kf_id` statement
applies `applyUpdate` to every row with the given id. No transition check is
performed on the previous status. -/
def update_status (db : KFTable) (kf_id status : String) (chunk_count : Option Int)
    (chunk_profile : Option String) (vector_count : Option Int)
    (embed_model : Option String) : KFTable :=
  db.map fun r =>
    if r.kf_id = kf_id then
      applyUpdate r status chunk_count chunk_profile vector_count embed_model
    else r

/-- Embeds `KnowledgeFileRepository.get_by_id`: first row with the given id, `none`
when absent. -/
def get_by_id : KFTable → String → Option KFRecord
  | [], _ => none
  | r :: rs, kf_id => if r.kf_id = kf_id then some r else get_by_id rs kf_id

/-! ## Orchestrator (`IndexingService.index_file`) -/

/-- The error taxonomy of §7 as realised by `index_file`'s raise sites:
`notFoundError` is the `FileNotFoundError` of step 0, `invalidInputError` the
`ValueError` for a non-regular path, `emptyResultError` the `ValueError` for
zero loaded documents, and `persistenceError` carries the message of a storage
failure raised by a repository call. -/
inductive IndexErr where
  | notFoundError
  | invalidInputError
  | emptyResultError
  | persistenceError (msg : String)
deriving DecidableEq, Repr

/-- Observable side-effect events of one `index_file` run, in order. -/
inductive IndexEvent where
  | checksumComputed
  | loadCalled
  | insertCalled
  | updateStatusCalled (status : String)
deriving DecidableEq, Repr

/-- The environment one `index_file` call runs against: the path's filesystem
facts, the materialised result of `loader.load([path])`, the UUID `insert`
would generate, and which repository calls the store rejects (`some msg` means
that call raises; `update_status` failures are keyed by the requested status). -/
structure IndexEnv where
  fsExists : Bool
  isFile : Bool
  loadResult : List RawDoc
  newId : String
  kbId : String
  sourceUri : String
  fileName : String
  fileExt : String
  fileSize : Int
  checksum : String
  parserName : String
  insertFail : Option String
  updateFail : String → Option String

/-- The outcome of one `index_file` call: the returned id or raised error, the
`knowledge_file` table afterwards, and the side-effect events in order. -/
structure IndexOutcome where
  result : Except IndexErr String
  db : KFTable
  events : List IndexEvent

/-- Embeds `IndexingService.index_file`: validate the path, compute the checksum,
materialise the loader output, insert the record (status `'parsed'`, with
`source_type='path'`, the checksum and the parser name), then update the status
to `'parsed'`. On any exception after a record id exists, attempt to mark the
record `'failed'`; a failure of that recovery update is logged and the original
exception propagates unchanged. -/
def index_file (env : IndexEnv) (db : KFTable) : IndexOutcome :=
  if env.fsExists = false then
    { result := .error .notFoundError, db := db, events := [] }
  else if env.isFile = false then
    { result := .error .invalidInputError, db := db, events := [] }
  else
    let ev2 : List IndexEvent := [.checksumComputed, .loadCalled]
    if env.loadResult.isEmpty then
      { result := .error .emptyResultError, db := db, events := ev2 }
    else
      match env.insertFail with
      | some m =>
        { result := .error (.persistenceError m), db := db,
          events := ev2 ++ [.insertCalled] }
      | none =>
        let db1 := insertRecord db env.newId env.kbId env.sourceUri env.fileName
          env.fileExt env.fileSize (some "path") (some env.checksum)
          (some env.parserName) 1 0
        let ev3 := ev2 ++ [.insertCalled]
        match env.updateFail "parsed" with
        | none =>
          { result := .ok env.newId,
            db := update_status db1 env.newId "parsed" none none none none,
            events := ev3 ++ [.updateStatusCalled "parsed"] }
        | some m =>
          match env.updateFail "failed" with
          | none =>
            { result := .error (.persistenceError m),
              db := update_status db1 env.newId "failed" none none none none,
              events := ev3 ++ [.updateStatusCalled "parsed", .updateStatusCalled "failed"] }
          | some _ =>
            { result := .error (.persistenceError m), db := db1,
              events := ev3 ++ [.updateStatusCalled "parsed", .updateStatusCalled "failed"] }

/-! ## Observed status sequences -/

/-- The argument bundle of one `update_status` call. -/
structure UpdCall where
  status : String
  chunk_count : Option Int
  chunk_profile : Option String
  vector_count : Option Int
  embed_model : Option String
deriving DecidableEq, Repr

/-- Run a sequence of `update_status` calls against one record id. -/
def applyCalls (db : KFTable) (kf_id : String) : List UpdCall → KFTable
  | [] => db
  | c :: cs =>
    applyCalls (update_status db kf_id c.status c.chunk_count c.chunk_profile
      c.vector_count c.embed_model) kf_id cs

/-- The status reported by `get_by_id` after each call of a sequence of
`update_status` calls (a record that has disappeared reports nothing). -/
def statusTrace (db : KFTable) (kf_id : String) : List UpdCall → List String
  | [] => []
  | c :: cs =>
    let db1 := update_status db kf_id c.status c.chunk_count c.chunk_profile
      c.vector_count c.embed_model
    (match get_by_id db1 kf_id with
     | some r => [r.status]
     | none => []) ++ statusTrace db1 kf_id cs

/-- The forward stage sequence of the spec's state machine. -/
def stageChain : List String := ["pending", "parsed", "chunked", "embedded"]

/-- Boolean sublist (subsequence) test. -/
def isSublistOf : List String → List String → Bool
  | [], _ => true
  | _ :: _, [] => false
  | a :: as, b :: bs => if a = b then isSublistOf as bs else isSublistOf (a :: as) bs

/-- The monotonicity property claimed for a status sequence: it is a
subsequence of `pending → parsed → chunked → embedded`, or such a subsequence
followed by a non-empty run of `failed`. -/
def monotoneTrace (l : List String) : Bool :=
  isSublistOf l stageChain ||
    (isSublistOf (l.takeWhile fun s => s ≠ "failed") stageChain &&
      (l.dropWhile fun s => s ≠ "failed").all (fun s => s = "failed") &&
      !(l.dropWhile fun s => s ≠ "failed").isEmpty)

/-! ## Concrete instances used as evaluation inputs -/

/-- A concrete backend: one path raises, the others yield one real unit and one
whitespace-only unit; no backend metadata mentions `source_path`. -/
def demoBackend : SimPath → Except String (List LCDoc) := fun p =>
  if p.pathStr = "bad.txt" then .error "boom"
  else .ok [{ page_content := "hello", metadata := [("source", p.pathStr)] },
            { page_content := "  ", metadata := [] }]

/-- A concrete load environment: every path but `gone.txt` exists. -/
def demoEnv : LoadEnv :=
  { fsExists := fun p => p.pathStr != "gone.txt", backend := demoBackend }

/-- A concrete `knowledge_file` table holding one freshly inserted row. -/
def demoDb : KFTable :=
  insertRecord [] "id1" "kb-001" "data/doc.txt" "doc.txt" ".txt" 5
    (some "path") (some "abc") (some "txt_parser") 1 0

/-- Concrete `update_status` calls driving the record to `embedded` and then back to
`pending`. -/
def demoCalls : List UpdCall :=
  [{ status := "embedded", chunk_count := none, chunk_profile := none,
     vector_count := some 3, embed_model := some "m" },
   { status := "pending", chunk_count := none, chunk_profile := none,
     vector_count := none, embed_model := none }]

/-- A concrete orchestrator environment: an existing regular file whose load
yields one document, with the store rejecting the `parsed` status update. -/
def demoIndexEnv : IndexEnv :=
  { fsExists := true, isFile := true,
    loadResult := [{ text := "hello", metadata := [("source", "data/doc.txt")] }],
    newId := "kf-1", kbId := "kb-001", sourceUri := "data/doc.txt",
    fileName := "doc.txt", fileExt := ".txt", fileSize := 5,
    checksum := "abc", parserName := "txt_parser",
    insertFail := none,
    updateFail := fun st => if st = "parsed" then some "db down" else none }

/-- A concrete directory tree with a duplicate entry, a nested allowed file and
a disallowed one. -/
def demoTree : FSTree :=
  .dir "root"
    [.file "root/b.txt",
     .dir "root/sub" [.file "root/sub/a.md", .file "root/sub/c.bin"],
     .file "root/b.txt"]

/-! ## Helper lemmas -/

theorem char_toNat_inj {a b : Char} (h : a.toNat = b.toNat) : a = b := by
  exact_mod_cast Char.ofNat_toNat a ▸ Char.ofNat_toNat b ▸ congrArg Char.ofNat h

theorem string_toList_inj {s t : String} (h : s.toList = t.toList) : s = t := by
  cases s
  cases t
  exact congrArg String.mk h

theorem charListLt_irrefl (l : List Char) : charListLt l l = false := by
  induction l with
  | nil => rfl
  | cons a as ih => simp [charListLt, ih]

theorem charListLt_trans {l1 l2 l3 : List Char} (h1 : charListLt l1 l2 = true)
    (h2 : charListLt l2 l3 = true) : charListLt l1 l3 = true := by
  induction l1 generalizing l2 l3 with
  | nil =>
    cases l3 with
    | nil =>
      rw [show charListLt l2 [] = false from by cases l2 <;> rfl] at h2
      cases h2
    | cons c cs => rfl
  | cons a as ih =>
    cases l2 with
    | nil =>
      rw [show charListLt (a :: as) [] = false from rfl] at h1
      cases h1
    | cons b bs =>
      cases l3 with
      | nil =>
        rw [show charListLt (b :: bs) [] = false from rfl] at h2
        cases h2
      | cons c cs =>
        simp only [charListLt] at h1 h2 ⊢
        by_cases hab : a.toNat < b.toNat
        · by_cases hbc : b.toNat < c.toNat
          · simp [show a.toNat < c.toNat from by omega]
          · by_cases hcb : c.toNat < b.toNat
            · simp [hbc, hcb] at h2
            · simp [show a.toNat < c.toNat from by omega]
        · by_cases hba : b.toNat < a.toNat
          · simp [hab, hba] at h1
          · by_cases hbc : b.toNat < c.toNat
            · simp [show a.toNat < c.toNat from by omega]
            · by_cases hcb : c.toNat < b.toNat
              · simp [hbc, hcb] at h2
              · simp [hab, hba] at h1
                simp [hbc, hcb] at h2
                simp [show ¬a.toNat < c.toNat from by omega,
                  show ¬c.toNat < a.toNat from by omega]
                exact ih h1 h2

theorem charListLt_of_ne {l1 l2 : List Char} (h : charListLt l1 l2 = false)
    (hne : l1 ≠ l2) : charListLt l2 l1 = true := by
  induction l1 generalizing l2 with
  | nil =>
    cases l2 with
    | nil => exact absurd rfl hne
    | cons b bs => simp [charListLt] at h
  | cons a as ih =>
    cases l2 with
    | nil => rfl
    | cons b bs =>
      simp only [charListLt] at h ⊢
      by_cases hab : a.toNat < b.toNat
      · simp [hab] at h
      · by_cases hba : b.toNat < a.toNat
        · simp [hba]
        · have heq : a = b := char_toNat_inj (by omega)
          subst heq
          simp only [lt_self_iff_false, if_false] at h ⊢
          have hne' : as ≠ bs := fun he => hne (by rw [he])
          exact ih h hne'

theorem strLt_irrefl (s : String) : strLt s s = false :=
  charListLt_irrefl _

theorem strLt_trans {a b c : String} (h1 : strLt a b = true)
    (h2 : strLt b c = true) : strLt a c = true :=
  charListLt_trans h1 h2

theorem strLt_of_ne {a b : String} (h : strLt a b = false) (hne : a ≠ b) :
    strLt b a = true :=
  charListLt_of_ne h fun he => hne (string_toList_inj he)

theorem ne_of_strLt {a b : String} (h : strLt a b = true) : a ≠ b := by
  intro he
  subst he
  rw [strLt_irrefl] at h
  cases h

theorem mem_insertSorted (x y : String) (l : List String) :
    y ∈ insertSorted x l ↔ y = x ∨ y ∈ l := by
  induction l with
  | nil => simp [insertSorted]
  | cons hd tl ih =>
    by_cases h1 : strLt x hd = true
    · simp only [insertSorted, if_pos h1, List.mem_cons]
    · by_cases h2 : x = hd
      · subst h2
        rw [insertSorted, if_neg h1, if_pos rfl]
        constructor
        · exact fun h => Or.inr h
        · rintro (h | h)
          · subst h; exact List.mem_cons_self _ _
          · exact h
      · simp only [insertSorted, if_neg h1, if_neg h2, List.mem_cons, ih]
        tauto

theorem pairwise_insertSorted (x : String) (l : List String)
    (h : l.Pairwise fun a b => strLt a b = true) :
    (insertSorted x l).Pairwise fun a b => strLt a b = true := by
  induction l with
  | nil => simp [insertSorted]
  | cons hd tl ih =>
    rcases List.pairwise_cons.mp h with ⟨hhd, htl⟩
    by_cases h1 : strLt x hd = true
    · rw [insertSorted, if_pos h1]
      refine List.pairwise_cons.mpr ⟨?_, h⟩
      intro a ha
      rcases List.mem_cons.mp ha with ha | ha
      · subst ha; exact h1
      · exact strLt_trans h1 (hhd a ha)
    · by_cases h2 : x = hd
      · rw [insertSorted, if_neg h1, if_pos h2]
        exact h
      · have hlt : strLt hd x = true :=
          strLt_of_ne (Bool.eq_false_iff.mpr h1) h2
        rw [insertSorted, if_neg h1, if_neg h2]
        refine List.pairwise_cons.mpr ⟨?_, ih htl⟩
        intro a ha
        rcases (mem_insertSorted x a tl).mp ha with ha | ha
        · subst ha; exact hlt
        · exact hhd a ha

theorem mem_sortDedup (y : String) (l : List String) :
    y ∈ sortDedup l ↔ y ∈ l := by
  induction l with
  | nil => simp [sortDedup]
  | cons hd tl ih =>
    simp only [sortDedup, List.foldr_cons, List.mem_cons]
    rw [mem_insertSorted]
    constructor
    · rintro (h | h)
      · exact Or.inl h
      · exact Or.inr (ih.mp h)
    · rintro (h | h)
      · exact Or.inl h
      · exact Or.inr (ih.mpr h)

theorem pairwise_sortDedup (l : List String) :
    (sortDedup l).Pairwise fun a b => strLt a b = true := by
  induction l with
  | nil => simp [sortDedup]
  | cons hd tl ih => exact pairwise_insertSorted hd (sortDedup tl) ih

theorem nodup_sortDedup (l : List String) : (sortDedup l).Nodup :=
  List.Pairwise.imp (fun h => ne_of_strLt h) (pairwise_sortDedup l)

theorem applyUpdate_kf_id (r : KFRecord) (st : String) (cc : Option Int)
    (cp : Option String) (vc : Option Int) (em : Option String) :
    (applyUpdate r st cc cp vc em).kf_id = r.kf_id := by
  unfold applyUpdate
  split_ifs <;> rfl

theorem applyUpdate_status (r : KFRecord) (st : String) (cc : Option Int)
    (cp : Option String) (vc : Option Int) (em : Option String) :
    (applyUpdate r st cc cp vc em).status = st := by
  unfold applyUpdate
  split_ifs with h1 h2
  · rfl
  · rfl
  · rfl

theorem get_by_id_insertRecord (db : KFTable) (id kb su fn fe : String)
    (fs : Int) (st ck pp : Option String) (v cd : Int)
    (hfresh : ∀ r ∈ db, r.kf_id ≠ id) :
    get_by_id (insertRecord db id kb su fn fe fs st ck pp v cd) id =
      some { kf_id := id, kb_id := kb, source_uri := su, file_name := fn,
             file_ext := fe, file_size := fs, source_type := st, checksum := ck,
             parser_profile := pp, version := v, custom_docs := cd,
             status := "parsed", chunk_count := none, chunk_profile := none,
             vector_count := none, embed_model := none } := by
  induction db with
  | nil => simp [insertRecord, get_by_id]
  | cons hd tl ih =>
    have hne : hd.kf_id ≠ id := hfresh hd (List.mem_cons_self hd tl)
    have htl : ∀ r ∈ tl, r.kf_id ≠ id := fun r hr => hfresh r (List.mem_cons_of_mem hd hr)
    simpa [insertRecord, get_by_id, hne] using ih htl

theorem get_by_id_update_status (db : KFTable) (id st : String) (cc : Option Int)
    (cp : Option String) (vc : Option Int) (em : Option String) (r : KFRecord)
    (h : get_by_id db id = some r) :
    get_by_id (update_status db id st cc cp vc em) id =
      some (applyUpdate r st cc cp vc em) := by
  induction db with
  | nil => simp [get_by_id] at h
  | cons hd tl ih =>
    by_cases hh : hd.kf_id = id
    · have hr : hd = r := by simpa [get_by_id, hh] using h
      subst hr
      simp [update_status, get_by_id, hh, applyUpdate_kf_id]
    · have h' : get_by_id tl id = some r := by simpa [get_by_id, hh] using h
      simpa [update_status, get_by_id, hh] using ih h'

theorem loadFile_eq_nil_of_not_fsExists (env : LoadEnv) (p : SimPath)
    (h : env.fsExists p = false) : loadFile env p = [] := by
  simp [loadFile, h]

theorem loadFile_eq_nil_of_unsupported (env : LoadEnv) (p : SimPath)
    (h : loader_map_keys.contains (strToLower (pathSuffix p.pathStr)) = false) :
    loadFile env p = [] := by
  unfold loadFile
  split_ifs with h1
  · rfl
  · simp [h]

theorem loadFile_eq_nil_of_backend_error (env : LoadEnv) (p : SimPath)
    (msg : String) (h : env.backend p = .error msg) : loadFile env p = [] := by
  unfold loadFile
  split_ifs with h1 h2
  · rfl
  · rfl
  · rw [h]

theorem load_erase_of_loadFile_eq_nil (env : LoadEnv) (paths : List SimPath)
    (p : SimPath) (h : loadFile env p = []) :
    load env paths = load env (paths.erase p) := by
  induction paths with
  | nil => rfl
  | cons hd tl ih =>
    by_cases hh : hd = p
    · subst hh
      simp [load, List.erase_cons_head, h]
    · rw [List.erase_cons_tail]
      · simp only [load, List.flatMap_cons] at *
        rw [ih]
      · simp [hh]

theorem mem_loadFile_elim (env : LoadEnv) (p : SimPath) (doc : RawDoc)
    (h : doc ∈ loadFile env p) :
    ∃ docs, env.backend p = .ok docs ∧ ∃ u ∈ docs,
      doc.text = u.page_content ∧ doc.metadata = u.metadata ∧
      u.page_content.toList.all Char.isWhitespace = false := by
  unfold loadFile at h
  split_ifs at h with h1 h2
  · simp at h
  · simp at h
  · cases hb : env.backend p with
    | error m => rw [hb] at h; simp at h
    | ok docs =>
      rw [hb] at h
      refine ⟨docs, rfl, ?_⟩
      have hm : doc ∈ (if docs.isEmpty = true then ([] : List RawDoc)
          else docs.filterMap fun d =>
            if d.page_content.toList.all Char.isWhitespace then none
            else some { text := d.page_content, metadata := d.metadata }) := h
      have h' : doc ∈ docs.filterMap fun d =>
          if d.page_content.toList.all Char.isWhitespace then none
          else some { text := d.page_content, metadata := d.metadata } := by
        by_cases he : docs.isEmpty = true
        · rw [if_pos he] at hm; simp at hm
        · rw [if_neg he] at hm; exact hm
      rcases List.mem_filterMap.mp h' with ⟨u, hu, hcond⟩
      by_cases hw : u.page_content.toList.all Char.isWhitespace = true
      · rw [if_pos hw] at hcond
        exact Option.noConfusion hcond
      · rw [if_neg hw] at hcond
        injection hcond with hq
        subst hq
        exact ⟨u, hu, rfl, rfl, Bool.eq_false_iff.mpr hw⟩

theorem statusTrace_eq_map_status (calls : List UpdCall) :
    ∀ (db : KFTable) (id : String) (r : KFRecord), get_by_id db id = some r →
      statusTrace db id calls = calls.map (fun c => c.status) := by
  induction calls with
  | nil => intro db id r h; rfl
  | cons c cs ih =>
    intro db id r h
    have h1 := get_by_id_update_status db id c.status c.chunk_count
      c.chunk_profile c.vector_count c.embed_model r h
    simp only [statusTrace, h1, applyUpdate_status, List.map_cons,
      List.singleton_append, List.cons.injEq]
    exact ⟨trivial, ih _ _ _ h1⟩

/-- A concrete lifecycle record: exactly the row `demoDb`'s insert creates. -/
def demoRec : KFRecord :=
  { kf_id := "id1", kb_id := "kb-001", source_uri := "data/doc.txt",
    file_name := "doc.txt", file_ext := ".txt", file_size := 5,
    source_type := some "path", checksum := some "abc",
    parser_profile := some "txt_parser", version := 1, custom_docs := 0,
    status := "parsed", chunk_count := none, chunk_profile := none,
    vector_count := none, embed_model := none }

/-! ## Claim theorems -/

/-- Claim C1, counterexample: the claim says every yielded RawDoc's metadata is
the backend metadata merged with at least `{source_path: path}`. In the code
(`langchain_Loader.py` line 165) the RawDoc is built with `metadata =
doc.metadata` unchanged, so a backend unit whose metadata has no `source_path`
key yields a RawDoc without one: here the single yielded RawDoc's metadata is
exactly the backend's `[("source", "a.txt")]` and contains no `source_path`
entry for any value. -/
theorem load_no_source_path_counterexample :
    load demoEnv [{ pathStr := "a.txt" }] =
      [{ text := "hello", metadata := [("source", "a.txt")] }] ∧
    ∀ doc ∈ load demoEnv [{ pathStr := "a.txt" }], ∀ v : String,
      ("source_path", v) ∉ doc.metadata := by
  have h1 : load demoEnv [{ pathStr := "a.txt" }] =
      [{ text := "hello", metadata := [("source", "a.txt")] }] := by rfl
  refine ⟨h1, ?_⟩
  intro doc hdoc v hv
  rw [h1, List.mem_singleton] at hdoc
  subst hdoc
  rcases List.mem_singleton.mp hv with hpair
  have : "source_path" = "source" := congrArg Prod.fst hpair
  exact absurd this (by decide)

/-- Claim C1, amended: for every path and every non-empty content unit the
backend returns, the yielded RawDoc has `text` equal to the extracted content
and `metadata` equal to the backend's metadata unchanged; the loader adds no
`source_path` entry, so the metadata contains the originating path only if the
backend itself put it there. -/
theorem load_maps_backend_units_verbatim (env : LoadEnv) (p : SimPath)
    (docs : List LCDoc) (hb : env.backend p = .ok docs) :
    ∀ doc ∈ loadFile env p, ∃ u ∈ docs,
      doc.text = u.page_content ∧ doc.metadata = u.metadata := by
  intro doc hdoc
  rcases mem_loadFile_elim env p doc hdoc with ⟨docs', hb', u, hu, ht, hm, _⟩
  rw [hb] at hb'
  injection hb' with he
  subst he
  exact ⟨u, hu, ht, hm⟩

/-- Witness for the amended C1 at a concrete environment. -/
theorem load_maps_backend_units_verbatim_witness :
    demoEnv.backend { pathStr := "a.txt" } =
      .ok [{ page_content := "hello", metadata := [("source", "a.txt")] },
           { page_content := "  ", metadata := [] }] ∧
    ∀ doc ∈ loadFile demoEnv { pathStr := "a.txt" },
      ∃ u ∈ [({ page_content := "hello", metadata := [("source", "a.txt")] } : LCDoc),
             { page_content := "  ", metadata := [] }],
        doc.text = u.page_content ∧ doc.metadata = u.metadata :=
  ⟨by rfl,
   load_maps_backend_units_verbatim demoEnv { pathStr := "a.txt" }
     [{ page_content := "hello", metadata := [("source", "a.txt")] },
      { page_content := "  ", metadata := [] }] (by rfl)⟩

/-- Claim C5: a path whose backend raises contributes nothing, so `load` yields
exactly the RawDocs of the remaining paths (and, the embedding being a total
function, never raises); missing files and unsupported extensions likewise
contribute nothing; and no yielded RawDoc has empty or whitespace-only text. -/
theorem load_resilience (env : LoadEnv) (paths : List SimPath) (p : SimPath)
    (msg : String) :
    (env.backend p = .error msg → load env paths = load env (paths.erase p)) ∧
    (env.fsExists p = false → loadFile env p = []) ∧
    (loader_map_keys.contains (strToLower (pathSuffix p.pathStr)) = false →
      loadFile env p = []) ∧
    (∀ doc ∈ load env paths, doc.text.toList.all Char.isWhitespace = false) := by
  refine ⟨?_, loadFile_eq_nil_of_not_fsExists env p,
    loadFile_eq_nil_of_unsupported env p, ?_⟩
  · intro h
    exact load_erase_of_loadFile_eq_nil env paths p
      (loadFile_eq_nil_of_backend_error env p msg h)
  · intro doc hdoc
    have hdoc' : doc ∈ paths.flatMap (loadFile env) := hdoc
    rcases List.mem_flatMap.mp hdoc' with ⟨q, hq, hdq⟩
    rcases mem_loadFile_elim env q doc hdq with ⟨docs, hb, u, hu, ht, hm, hw⟩
    rw [ht]
    exact hw

/-- Witness for C5 at a concrete environment: the erroring path is dropped, a
missing file and an unsupported extension yield nothing, and the surviving
yields are exactly the other paths' non-blank units. -/
theorem load_resilience_witness :
    (demoEnv.backend { pathStr := "bad.txt" } = .error "boom" ∧
      load demoEnv [{ pathStr := "a.txt" }, { pathStr := "bad.txt" }, { pathStr := "b.md" }] =
        load demoEnv ([{ pathStr := "a.txt" }, { pathStr := "bad.txt" },
          { pathStr := "b.md" }].erase { pathStr := "bad.txt" })) ∧
    (demoEnv.fsExists { pathStr := "gone.txt" } = false ∧
      loadFile demoEnv { pathStr := "gone.txt" } = []) ∧
    (loader_map_keys.contains (strToLower (pathSuffix "c.xyz")) = false ∧
      loadFile demoEnv { pathStr := "c.xyz" } = []) :=
  ⟨⟨by rfl, (load_resilience demoEnv
      [{ pathStr := "a.txt" }, { pathStr := "bad.txt" }, { pathStr := "b.md" }]
      { pathStr := "bad.txt" } "boom").1 (by rfl)⟩,
   ⟨by rfl, (load_resilience demoEnv [] { pathStr := "gone.txt" } "boom").2.1 (by rfl)⟩,
   ⟨by rfl, (load_resilience demoEnv [] { pathStr := "c.xyz" } "boom").2.2.1 (by rfl)⟩⟩

/-- Claim C6: `discover_files` returns `[]` for a nonexistent root; returns
`[root]` for a file root iff its normalised (lower-cased, dot-prefixed)
extension is allowed, else `[]`; and for a directory root returns exactly the
recursively contained files with allowed normalised extension, strictly sorted
(hence de-duplicated). The embedded function is pure, so two successive calls
over an unchanged tree are definitionally identical. -/
theorem discover_files_spec (allowed : List String) (p dp : String)
    (cs : List FSTree) (t : FSTree) :
    (discover_files allowed none = []) ∧
    ((normalizeExts allowed).contains (strToLower (pathSuffix p)) = true →
      discover_files allowed (some (.file p)) = [p]) ∧
    ((normalizeExts allowed).contains (strToLower (pathSuffix p)) = false →
      discover_files allowed (some (.file p)) = []) ∧
    ((discover_files allowed (some (.dir dp cs))).Pairwise fun a b => strLt a b = true) ∧
    (discover_files allowed (some (.dir dp cs))).Nodup ∧
    (∀ x, x ∈ discover_files allowed (some (.dir dp cs)) ↔
      x ∈ collectFilesList cs ∧
        (normalizeExts allowed).contains (strToLower (pathSuffix x)) = true) ∧
    discover_files allowed (some t) = discover_files allowed (some t) := by
  refine ⟨rfl, ?_, ?_, ?_, ?_, ?_, rfl⟩
  · intro h
    show (if (normalizeExts allowed).contains (strToLower (pathSuffix p)) = true
      then [p] else []) = [p]
    rw [if_pos h]
  · intro h
    show (if (normalizeExts allowed).contains (strToLower (pathSuffix p)) = true
      then [p] else []) = []
    have hne : ¬((normalizeExts allowed).contains (strToLower (pathSuffix p)) = true) := by
      rw [h]; simp
    rw [if_neg hne]
  · exact pairwise_sortDedup ((collectFilesList cs).filter fun q =>
      (normalizeExts allowed).contains (strToLower (pathSuffix q)))
  · exact nodup_sortDedup ((collectFilesList cs).filter fun q =>
      (normalizeExts allowed).contains (strToLower (pathSuffix q)))
  · intro x
    have hdef : discover_files allowed (some (.dir dp cs)) =
        sortDedup ((collectFilesList cs).filter fun q =>
          (normalizeExts allowed).contains (strToLower (pathSuffix q))) := rfl
    rw [hdef, mem_sortDedup, List.mem_filter]

/-- Witness for C6 on a concrete tree with a duplicate entry, exercising the
extension normalisation (`"TXT"` becomes `".txt"`). -/
theorem discover_files_spec_witness :
    ((normalizeExts ["TXT", ".md"]).contains (strToLower (pathSuffix "root/b.txt")) = true ∧
      discover_files ["TXT", ".md"] (some (.file "root/b.txt")) = ["root/b.txt"]) ∧
    ((normalizeExts ["TXT", ".md"]).contains (strToLower (pathSuffix "root/sub/c.bin")) = false ∧
      discover_files ["TXT", ".md"] (some (.file "root/sub/c.bin")) = []) ∧
    ((discover_files ["TXT", ".md"] (some demoTree)).Pairwise fun a b => strLt a b = true) ∧
    discover_files ["TXT", ".md"] (some demoTree) = ["root/b.txt", "root/sub/a.md"] := by
  refine ⟨⟨by rfl, (discover_files_spec ["TXT", ".md"] "root/b.txt" "root" [] demoTree).2.1 (by rfl)⟩,
    ⟨by rfl, (discover_files_spec ["TXT", ".md"] "root/sub/c.bin" "root" [] demoTree).2.2.1 (by rfl)⟩,
    ?_, by rfl⟩
  exact (discover_files_spec ["TXT", ".md"] "x" "root"
    [.file "root/b.txt",
     .dir "root/sub" [.file "root/sub/a.md", .file "root/sub/c.bin"],
     .file "root/b.txt"] demoTree).2.2.2.1

/-- Claim C3, counterexample: `update_status` performs no transition check, so
status can regress. Starting from a freshly inserted record (status `parsed`)
and calling `update_status` with `embedded` and then `pending`, the observed
status sequence `parsed, embedded, pending` is neither a subsequence of
`pending → parsed → chunked → embedded` nor one ending in `failed`. -/
theorem update_status_regression_counterexample :
    (get_by_id demoDb "id1").isSome = true ∧
    statusTrace demoDb "id1" demoCalls = ["embedded", "pending"] ∧
    monotoneTrace ("parsed" :: statusTrace demoDb "id1" demoCalls) = false := by
  exact ⟨by rfl, by rfl, by rfl⟩

/-- Claim C3, amended: the repository applies each requested status verbatim
and enforces no forward-only discipline: for any existing record, the status
sequence observed over a sequence of `update_status` calls equals exactly the
sequence of requested statuses, so it is monotone iff the callers' requests
are; the repository itself never prevents a regression. -/
theorem statusTrace_matches_requested (db : KFTable) (id : String) (r : KFRecord)
    (calls : List UpdCall) (h : get_by_id db id = some r) :
    statusTrace db id calls = calls.map (fun c => c.status) :=
  statusTrace_eq_map_status calls db id r h

/-- Witness for the amended C3 at a concrete record and call sequence. -/
theorem statusTrace_matches_requested_witness :
    statusTrace demoDb "id1" demoCalls = demoCalls.map (fun c => c.status) :=
  statusTrace_matches_requested demoDb "id1" demoRec demoCalls (by rfl)

/-- Claim C4: `update_status(id, 'embedded', ...)` rewrites the record to
exactly the old record with `status := "embedded"`, `vector_count` set to the
argument defaulted to 0, and `embed_model` set to the argument defaulted to
`'unknown'`; in particular `chunk_count`, `chunk_profile` and every other field
are unchanged. -/
theorem update_status_embedded_frame (db : KFTable) (id : String) (r : KFRecord)
    (cc vc : Option Int) (cp em : Option String)
    (h : get_by_id db id = some r) :
    get_by_id (update_status db id "embedded" cc cp vc em) id =
      some { r with status := "embedded",
                    vector_count := some (pyOrInt vc 0),
                    embed_model := some (pyOrStr em "unknown") } := by
  rw [get_by_id_update_status db id "embedded" cc cp vc em r h]
  have happ : applyUpdate r "embedded" cc cp vc em =
      { r with status := "embedded", vector_count := some (pyOrInt vc 0),
               embed_model := some (pyOrStr em "unknown") } := by
    unfold applyUpdate
    rw [if_neg (by decide), if_pos rfl]
  rw [happ]

/-- Witness for C4, mirroring E2E scenario B: chunk first, then embed; the
chunk statistics survive the embed transition. -/
theorem update_status_embedded_frame_witness :
    get_by_id (update_status
      (update_status demoDb "id1" "chunked" (some 10) (some "recursive_500_50") none none)
      "id1" "embedded" none none (some 10) (some "text-embedding-3-small")) "id1" =
      some { demoRec with status := "embedded", chunk_count := some 10,
                          chunk_profile := some "recursive_500_50",
                          vector_count := some 10,
                          embed_model := some "text-embedding-3-small" } :=
  update_status_embedded_frame
    (update_status demoDb "id1" "chunked" (some 10) (some "recursive_500_50") none none)
    "id1"
    { demoRec with status := "chunked", chunk_count := some 10,
                   chunk_profile := some "recursive_500_50" }
    none (some 10) none (some "text-embedding-3-small") (by rfl)

/-- Claim C9: for every combination of `insert` arguments, the created record
has `status = "parsed"` — the Python signature exposes no parameter that could
select `pending` — and `get_by_id` immediately afterwards reports the `version`
and `custom_docs` arguments as stored. -/
theorem insert_always_parsed (db : KFTable) (id kb su fn fe : String) (fs : Int)
    (st ck pp : Option String) (v cd : Int)
    (hfresh : ∀ r ∈ db, r.kf_id ≠ id) :
    ∃ r, get_by_id (insertRecord db id kb su fn fe fs st ck pp v cd) id = some r ∧
      r.status = "parsed" ∧ r.version = v ∧ r.custom_docs = cd :=
  ⟨_, get_by_id_insertRecord db id kb su fn fe fs st ck pp v cd hfresh, rfl, rfl, rfl⟩

/-- Witness for C9 at a concrete insert (E2E scenario A shape). -/
theorem insert_always_parsed_witness :
    ∃ r, get_by_id demoDb "id1" = some r ∧
      r.status = "parsed" ∧ r.version = 1 ∧ r.custom_docs = 0 :=
  insert_always_parsed [] "id1" "kb-001" "data/doc.txt" "doc.txt" ".txt" 5
    (some "path") (some "abc") (some "txt_parser") 1 0 (by simp)

/-- Claim C10: the `x or default` sentinels replace every falsy argument, not
only omitted ones: for `chunked`, `chunk_profile` of `None` or `""` is stored
as `"default"` while an explicit `chunk_count = 0` is stored as `0`; for
`embedded`, `embed_model` of `None` or `""` is stored as `"unknown"` while an
explicit `vector_count = 0` is stored as `0`. -/
theorem update_status_falsy_defaults (db : KFTable) (id : String) (r : KFRecord)
    (cc vc : Option Int) (cp em : Option String)
    (h : get_by_id db id = some r) :
    ((get_by_id (update_status db id "chunked" cc none vc em) id).map
      (fun q => q.chunk_profile) = some (some "default")) ∧
    ((get_by_id (update_status db id "chunked" cc (some "") vc em) id).map
      (fun q => q.chunk_profile) = some (some "default")) ∧
    ((get_by_id (update_status db id "chunked" (some 0) cp vc em) id).map
      (fun q => q.chunk_count) = some (some 0)) ∧
    ((get_by_id (update_status db id "embedded" cc cp vc none) id).map
      (fun q => q.embed_model) = some (some "unknown")) ∧
    ((get_by_id (update_status db id "embedded" cc cp vc (some "")) id).map
      (fun q => q.embed_model) = some (some "unknown")) ∧
    ((get_by_id (update_status db id "embedded" cc cp (some 0) em) id).map
      (fun q => q.vector_count) = some (some 0)) := by
  refine ⟨?_, ?_, ?_, ?_, ?_, ?_⟩ <;>
    rw [get_by_id_update_status db id _ _ _ _ _ r h] <;>
    unfold applyUpdate <;>
    simp [pyOrInt, pyOrStr]

/-- Witness for C10 at a concrete record. -/
theorem update_status_falsy_defaults_witness :
    ((get_by_id (update_status demoDb "id1" "chunked" none none none none) "id1").map
      (fun q => q.chunk_profile) = some (some "default")) ∧
    ((get_by_id (update_status demoDb "id1" "chunked" none (some "") none none) "id1").map
      (fun q => q.chunk_profile) = some (some "default")) ∧
    ((get_by_id (update_status demoDb "id1" "chunked" (some 0) none none none) "id1").map
      (fun q => q.chunk_count) = some (some 0)) ∧
    ((get_by_id (update_status demoDb "id1" "embedded" none none none none) "id1").map
      (fun q => q.embed_model) = some (some "unknown")) ∧
    ((get_by_id (update_status demoDb "id1" "embedded" none none none (some "")) "id1").map
      (fun q => q.embed_model) = some (some "unknown")) ∧
    ((get_by_id (update_status demoDb "id1" "embedded" none none (some 0) none) "id1").map
      (fun q => q.vector_count) = some (some 0)) :=
  update_status_falsy_defaults demoDb "id1" demoRec none none none none (by rfl)

/-- Claim C2: when `index_file` fails after the record is inserted (here: the
store rejects the `parsed` status update), the orchestrator attempts to mark
the record `failed` and propagates the ORIGINAL error — also when the recovery
update itself fails (the secondary failure is only logged); and whenever the
recovery update succeeds, `get_by_id` afterwards reports `status = "failed"`. -/
theorem index_file_failure_recovery (env : IndexEnv) (db : KFTable) (m : String)
    (hfs : env.fsExists = true) (hf : env.isFile = true)
    (hne : env.loadResult.isEmpty = false) (hins : env.insertFail = none)
    (hupd : env.updateFail "parsed" = some m)
    (hfresh : ∀ r ∈ db, r.kf_id ≠ env.newId) :
    (index_file env db).result = .error (.persistenceError m) ∧
    IndexEvent.updateStatusCalled "failed" ∈ (index_file env db).events ∧
    (env.updateFail "failed" = none →
      ∃ r, get_by_id (index_file env db).db env.newId = some r ∧
        r.status = "failed") := by
  have hg := get_by_id_insertRecord db env.newId env.kbId env.sourceUri
    env.fileName env.fileExt env.fileSize (some "path") (some env.checksum)
    (some env.parserName) 1 0 hfresh
  cases hrec : env.updateFail "failed" with
  | none =>
    have hout : index_file env db =
        { result := .error (.persistenceError m),
          db := update_status (insertRecord db env.newId env.kbId env.sourceUri
            env.fileName env.fileExt env.fileSize (some "path") (some env.checksum)
            (some env.parserName) 1 0) env.newId "failed" none none none none,
          events := [.checksumComputed, .loadCalled, .insertCalled,
            .updateStatusCalled "parsed", .updateStatusCalled "failed"] } := by
      unfold index_file
      rw [hfs, hf, hne, hins, hupd, hrec]
      simp
    rw [hout]
    refine ⟨rfl, by simp, fun _ => ?_⟩
    exact ⟨_, get_by_id_update_status _ env.newId "failed" none none none none _ hg,
      applyUpdate_status _ _ _ _ _ _⟩
  | some m2 =>
    have hout : index_file env db =
        { result := .error (.persistenceError m),
          db := insertRecord db env.newId env.kbId env.sourceUri env.fileName
            env.fileExt env.fileSize (some "path") (some env.checksum)
            (some env.parserName) 1 0,
          events := [.checksumComputed, .loadCalled, .insertCalled,
            .updateStatusCalled "parsed", .updateStatusCalled "failed"] } := by
      unfold index_file
      rw [hfs, hf, hne, hins, hupd, hrec]
      simp
    rw [hout]
    refine ⟨rfl, by simp, fun hx => ?_⟩
    cases hx

/-- Witness for C2 at a concrete environment where the `parsed` update fails
and the recovery update succeeds. -/
theorem index_file_failure_recovery_witness :
    (index_file demoIndexEnv []).result = .error (.persistenceError "db down") ∧
    IndexEvent.updateStatusCalled "failed" ∈ (index_file demoIndexEnv []).events ∧
    (∃ r, get_by_id (index_file demoIndexEnv []).db "kf-1" = some r ∧
      r.status = "failed") := by
  have h := index_file_failure_recovery demoIndexEnv [] "db down"
    (by rfl) (by rfl) (by rfl) (by rfl) (by rfl) (by simp)
  exact ⟨h.1, h.2.1, h.2.2 (by rfl)⟩

/-- Claim C7: on a nonexistent path `index_file` raises `FileNotFoundError`
(the spec's `NotFoundError`), and on a non-regular path it raises `ValueError`
(the spec's `InvalidInputError`), in both cases before any side effect: no
checksum is computed, no load is attempted, no event occurs and the
`knowledge_file` table is unchanged (zero records created). -/
theorem index_file_invalid_path_no_side_effects (env : IndexEnv) (db : KFTable) :
    (env.fsExists = false →
      index_file env db =
        { result := .error .notFoundError, db := db, events := [] }) ∧
    (env.fsExists = true → env.isFile = false →
      index_file env db =
        { result := .error .invalidInputError, db := db, events := [] }) := by
  constructor
  · intro h
    unfold index_file
    rw [h]
    simp
  · intro h1 h2
    unfold index_file
    rw [h1, h2]
    simp

/-- Witness for C7 at concrete environments. -/
theorem index_file_invalid_path_witness :
    index_file { demoIndexEnv with fsExists := false } [] =
      { result := .error .notFoundError, db := [], events := [] } ∧
    index_file { demoIndexEnv with isFile := false } [] =
      { result := .error .invalidInputError, db := [], events := [] } :=
  ⟨(index_file_invalid_path_no_side_effects
      { demoIndexEnv with fsExists := false } []).1 rfl,
   (index_file_invalid_path_no_side_effects
      { demoIndexEnv with isFile := false } []).2 rfl rfl⟩

/-- Claim C8: for an existing regular file whose materialised load is empty,
`index_file` raises `EmptyResultError` (the code's `ValueError` for zero
documents); the events show checksum and load happened but no insert, and the
table is unchanged — the failure precedes any record insertion. -/
theorem index_file_empty_result (env : IndexEnv) (db : KFTable)
    (hfs : env.fsExists = true) (hf : env.isFile = true)
    (hempty : env.loadResult = []) :
    (index_file env db).result = .error .emptyResultError ∧
    (index_file env db).db = db ∧
    (index_file env db).events = [.checksumComputed, .loadCalled] ∧
    IndexEvent.insertCalled ∉ (index_file env db).events := by
  have hout : index_file env db =
      { result := .error .emptyResultError, db := db,
        events := [.checksumComputed, .loadCalled] } := by
    unfold index_file
    rw [hfs, hf, hempty]
    simp
  rw [hout]
  exact ⟨rfl, rfl, rfl, by simp⟩

/-- Witness for C8 at a concrete environment whose load yields nothing. -/
theorem index_file_empty_result_witness :
    (index_file { demoIndexEnv with loadResult := [] } []).result =
      .error .emptyResultError ∧
    (index_file { demoIndexEnv with loadResult := [] } []).db = [] ∧
    IndexEvent.insertCalled ∉ (index_file { demoIndexEnv with loadResult := [] } []).events := by
  have h := index_file_empty_result { demoIndexEnv with loadResult := [] } []
    (by rfl) (by rfl) (by rfl)
  exact ⟨h.1, h.2.1, h.2.2.2⟩

end RagAI
